import Mathlib

/-!
Shallow embedding of `src/app/network_scanner.py` (PushbulletNetworkMonitor).

Text is modelled as `List Char`.  The Python string operations the code uses
(`in`, `split`, `join`, `lower`, `replace`, `str(i)`) are embedded as
executable functions on `List Char`.  Subprocess output is an input of the
embedding: each probe's `(stdout, stderr)` pair, and the text printed by
`arp -a`, are parameters of the corresponding functions.
-/

set_option maxRecDepth 200000

namespace NetScan

/-- Python `needle in hay` on strings: contiguous-substring containment. -/
def pyIn (needle hay : List Char) : Bool := decide (needle <:+: hay)

/-- Python `s.split(sep)` for a single-character separator: splits at every
occurrence, keeping empty pieces (`"".split(sep) == [""]`). -/
def pySplit (sep : Char) : List Char → List (List Char)
  | [] => [[]]
  | c :: cs =>
      let r := pySplit sep cs
      if c = sep then [] :: r
      else
        match r with
        | [] => [[c]]
        | h :: t => (c :: h) :: t

/-- Python `sep.join(parts)` for a single-character separator. -/
def pyJoin (sep : Char) : List (List Char) → List Char
  | [] => []
  | [x] => x
  | x :: y :: xs => x ++ sep :: pyJoin sep (y :: xs)

/-- Python `s.lower()` (ASCII case mapping; the strings involved — hardware
addresses and `arp`/`ping` output decoded as ASCII — are ASCII). -/
def pyLower (s : List Char) : List Char := s.map Char.toLower

/-- Python `s.replace(old, new)` for single characters: a character map. -/
def pyReplace (old new : Char) (s : List Char) : List Char :=
  s.map (fun c => if c = old then new else c)

/-- Decimal digits of `n`, with explicit fuel so the kernel can evaluate it. -/
def natCharsAux : Nat → Nat → List Char
  | 0, _ => []
  | fuel + 1, n =>
      if n < 10 then [Nat.digitChar n]
      else natCharsAux fuel (n / 10) ++ [Nat.digitChar (n % 10)]

/-- Python `str(i)` for a natural number. -/
def natChars (n : Nat) : List Char := natCharsAux (n + 1) n

/-- The constructor fields of `NetworkScanner.__init__`: optional `ip`,
optional raw `_mac`, optional `hostname`. -/
structure Scanner where
  ip : Option (List Char)
  rawMac : Option (List Char)
  hostname : Option (List Char)

/-- `NetworkScanner.mac` property body: `self._mac.lower().replace(':','-')`. -/
def macNormalize (s : List Char) : List Char := pyReplace ':' '-' (pyLower s)

/-- `NetworkScanner.mac` property: `None` when `_mac` is falsy (absent or
empty), otherwise the lower-cased, colon-to-dash form of `_mac`. -/
def Scanner.mac (t : Scanner) : Option (List Char) :=
  match t.rawMac with
  | none => none
  | some s => if s = [] then none else some (macNormalize s)

/-- `NetworkScanner.prefix` property:
`'.'.join(self.ip.split('.')[0:3]) + '.'` when `self.ip` is truthy, else `''`. -/
def Scanner.subnetPfx (t : Scanner) : List Char :=
  match t.ip with
  | none => []
  | some s => if s = [] then [] else pyJoin '.' ((pySplit '.' s).take 3) ++ ['.']

/-- `NetworkScanner.ping`, as a function of the spawned process's captured
`stdout` and `stderr`: returns the stderr text when there is any, else the
stdout text when there is any, else `None`. -/
def ping (stdout stderr : List Char) : Option (List Char) :=
  if stderr ≠ [] then some stderr
  else if stdout ≠ [] then some stdout
  else none

/-- The value `NetworkScanner.ping` returns for address `a`, given the
per-address process outputs `proc a = (stdout, stderr)`. -/
def pingOf (proc : List Char → List Char × List Char) (a : List Char) :
    Option (List Char) :=
  ping (proc a).1 (proc a).2

/-- The addresses probed by one `NetworkScanner.scan_network` sweep:
`self.prefix + str(i)` for `i in range(255)`. -/
def scanAddrs (pfx : List Char) : List (List Char) :=
  (List.range 255).map (fun i => pfx ++ natChars i)

/-- `NetworkScanner.scan_network`, given the per-address process outputs and
the text printed by `arp -a`: all probes are gathered (first component — the
list of their results), then the `arp -a` lines containing the prefix are
returned (second component). -/
def scan_network (proc : List Char → List Char × List Char) (arpa : List Char)
    (pfx : List Char) : List (Option (List Char)) × List (List Char) :=
  ((scanAddrs pfx).map (pingOf proc),
   (pySplit '\n' arpa).filter (fun x => pyIn pfx x))

/-- Observable events of one `scan_network` call. -/
inductive SweepEvent where
  | probeIssued : List Char → SweepEvent
  | probeDone : List Char → SweepEvent
  | cacheRead : SweepEvent
  | ret : SweepEvent
deriving DecidableEq

/-- Event order of one `scan_network` call: a task is created for every
address of `scanAddrs`, `asyncio.gather` completes all of them (in scheduler
order `doneOrder`), then `arp -a` is read and the call returns. -/
def scanTrace (pfx : List Char) (doneOrder : List (List Char)) : List SweepEvent :=
  (scanAddrs pfx).map SweepEvent.probeIssued
    ++ doneOrder.map SweepEvent.probeDone
    ++ [SweepEvent.cacheRead, SweepEvent.ret]

/-- `IpScanStrategy.on_network`: `False` when `self.ip` is falsy, otherwise
`self.ip in arpa` where `arpa` is the decoded `arp -a` output. -/
def IpScanStrategy.on_network (ip : Option (List Char)) (arpa : List Char) : Bool :=
  match ip with
  | none => false
  | some s => if s = [] then false else pyIn s arpa

/-- `MacScanStrategy.on_network`: `False` when `self.mac` is falsy, otherwise
`self.mac in arpa`. -/
def MacScanStrategy.on_network (mac : Option (List Char)) (arpa : List Char) : Bool :=
  match mac with
  | none => false
  | some s => if s = [] then false else pyIn s arpa

instance {ε α : Type} [DecidableEq ε] [DecidableEq α] : DecidableEq (Except ε α) := fun
  | Except.error e, Except.error f =>
      if h : e = f then isTrue (by rw [h])
      else isFalse (by intro hh; injection hh; exact h (by assumption))
  | Except.error _, Except.ok _ => isFalse (by intro h; cases h)
  | Except.ok _, Except.error _ => isFalse (by intro h; cases h)
  | Except.ok a, Except.ok b =>
      if h : a = b then isTrue (by rw [h])
      else isFalse (by intro hh; injection hh; exact h (by assumption))

/-- Python `a in x` where either operand may be `None`: a `TypeError` escapes
unless both are strings. -/
def pyInOpt (a x : Option (List Char)) : Except (List Char) Bool :=
  match a, x with
  | some n, some h => Except.ok (pyIn n h)
  | _, _ => Except.error "TypeError".data

/-- Python `any(hostname in x for x in outputs)`: left-to-right evaluation,
stopping at the first `True` element, with any `TypeError` escaping. -/
def pyAnyIn (hostname : Option (List Char)) :
    List (Option (List Char)) → Except (List Char) Bool
  | [] => Except.ok false
  | x :: xs =>
      match pyInOpt hostname x with
      | Except.error e => Except.error e
      | Except.ok true => Except.ok true
      | Except.ok false => pyAnyIn hostname xs

/-- The addresses probed by one `HostnameScanStrategy.on_network` sweep:
`self.prefix + str(i)` for `i in range(255)` (line 62 of the source). -/
def hostnameSweepAddrs (pfx : List Char) : List (List Char) :=
  (List.range 255).map (fun i => pfx ++ natChars i)

/-- `HostnameScanStrategy.on_network`: gathers `ping(prefix + str(i),
get_hostname=True)` for `i in range(255)` and evaluates
`any(self.hostname in x for x in ping_output)`. -/
def HostnameScanStrategy.on_network (hostname : Option (List Char))
    (pfx : List Char) (proc : List Char → List Char × List Char) :
    Except (List Char) Bool :=
  pyAnyIn hostname ((hostnameSweepAddrs pfx).map (pingOf proc))

/-- Arguments of one callback invocation: `(ip, mac, hostname)`. -/
abbrev CbArgs := Option (List Char) × Option (List Char) × Option (List Char)

/-- One iteration of the `NetworkScanner.monitor` loop body, with the
`on_network()` result `ev` of the tick as input (the callback `cb` is taken
to be provided, as in every use of `monitor` in the source): returns the new
`state_is_connected` and the argument triple of the callback invocation, if
one happens.  Python truthiness of the `Optional[bool]` state: `None` and
`False` are falsy, `True` is truthy. -/
def monitorTick (t : Scanner) (cbOnChangeOnly : Bool) (st : Option Bool)
    (ev : Bool) : Option Bool × Option CbArgs :=
  if ev then
    (some true,
     if st ≠ some true ∨ cbOnChangeOnly = false then
       some (t.ip, t.mac, t.hostname)
     else none)
  else
    (some false,
     if st = some true ∨ cbOnChangeOnly = false then
       some (none, none, none)
     else none)

/-- The `monitor` loop run over a finite list of per-tick `on_network()`
results: final `state_is_connected` and the per-tick callback invocations. -/
def monitorRun (t : Scanner) (cbOnChangeOnly : Bool) :
    Option Bool → List Bool → Option Bool × List (Option CbArgs)
  | st, [] => (st, [])
  | st, ev :: evs =>
      let s := monitorTick t cbOnChangeOnly st ev
      let r := monitorRun t cbOnChangeOnly s.1 evs
      (r.1, s.2 :: r.2)

/-- The value of `state_is_connected` after each tick of the `monitor` loop. -/
def monitorStates (t : Scanner) (cbOnChangeOnly : Bool) :
    Option Bool → List Bool → List (Option Bool)
  | _, [] => []
  | st, ev :: evs =>
      let s := monitorTick t cbOnChangeOnly st ev
      s.1 :: monitorStates t cbOnChangeOnly s.1 evs

/-- Modelled from the spec: "lower-case, dash-delimited canonical form" — all
characters are lower-case ASCII letters (code 97–122), digits (48–57), or
dashes. -/
def dashDelimitedLower (s : List Char) : Bool :=
  s.all (fun c => (decide (97 ≤ c.toNat) && decide (c.toNat ≤ 122)) ||
                  (decide (48 ≤ c.toNat) && decide (c.toNat ≤ 57)) ||
                  decide (c = '-'))

/-- Characters a hardware-address string is made of: ASCII alphanumerics and
the colon or dash delimiters. -/
def macInputChar (c : Char) : Bool :=
  (decide (48 ≤ c.toNat) && decide (c.toNat ≤ 57)) ||
  (decide (65 ≤ c.toNat) && decide (c.toNat ≤ 90)) ||
  (decide (97 ≤ c.toNat) && decide (c.toNat ≤ 122)) ||
  decide (c = ':') || decide (c = '-')

/-- The character-level action of `macNormalize`: lower, then colon to dash. -/
def macNormChar (c : Char) : Char := if c.toLower = ':' then '-' else c.toLower

/-- A concrete probe-output environment: probing address "47" answers with a
reply naming DIETPI, every other probe fails with error text on stderr. -/
def procW (a : List Char) : List Char × List Char :=
  if a = "47".data then ("Reply from 47: DIETPI [192.168.0.47]".data, [])
  else ([], "ping: transmit failed".data)

/-! Helper lemmas. -/

theorem toNat_ofNat_valid {n : Nat} (h : n.isValidChar) : (Char.ofNat n).toNat = n := by
  rw [Char.ofNat, dif_pos h]
  rfl

theorem char_eq_of_toNat_eq {a b : Char} (h : a.toNat = b.toNat) : a = b :=
  Char.ext (UInt32.toNat.inj h)

theorem toLower_toNat (c : Char) :
    c.toLower.toNat = if c.toNat ≥ 65 ∧ c.toNat ≤ 90 then c.toNat + 32 else c.toNat := by
  unfold Char.toLower
  split
  next h =>
    rw [if_pos h]
    exact toNat_ofNat_valid (Or.inl (by omega))
  next h => rw [if_neg h]

theorem toLower_idem (c : Char) : c.toLower.toLower = c.toLower := by
  apply char_eq_of_toNat_eq
  have h1 := toLower_toNat c
  have h2 := toLower_toNat c.toLower
  by_cases h : c.toNat ≥ 65 ∧ c.toNat ≤ 90
  · rw [if_pos h] at h1
    rw [h1, if_neg (by omega)] at h2
    omega
  · rw [if_neg h] at h1
    rw [h1, if_neg h] at h2
    omega

theorem macNormalize_eq_map (s : List Char) : macNormalize s = s.map macNormChar := by
  unfold macNormalize pyReplace pyLower macNormChar
  rw [List.map_map]
  rfl

theorem macNormChar_idem (c : Char) : macNormChar (macNormChar c) = macNormChar c := by
  unfold macNormChar
  by_cases h : c.toLower = ':'
  · rw [if_pos h]
    rfl
  · rw [if_neg h, toLower_idem, if_neg h]

theorem toLower_macNormChar (c : Char) : (macNormChar c).toLower = macNormChar c := by
  unfold macNormChar
  by_cases h : c.toLower = ':'
  · rw [if_pos h]
    rfl
  · rw [if_neg h, toLower_idem]

theorem macNormalize_idem (s : List Char) :
    macNormalize (macNormalize s) = macNormalize s := by
  rw [macNormalize_eq_map, macNormalize_eq_map, List.map_map]
  apply List.map_congr_left
  intro c _
  exact macNormChar_idem c

theorem pyLower_macNormalize (s : List Char) :
    pyLower (macNormalize s) = macNormalize s := by
  rw [macNormalize_eq_map]
  unfold pyLower
  rw [List.map_map]
  apply List.map_congr_left
  intro c _
  exact toLower_macNormChar c

theorem macNormalize_no_colon (s : List Char) :
    ∀ c ∈ macNormalize s, c ≠ ':' := by
  rw [macNormalize_eq_map]
  intro c hc
  obtain ⟨a, _, rfl⟩ := List.mem_map.mp hc
  unfold macNormChar
  by_cases h : a.toLower = ':'
  · rw [if_pos h]
    intro hcontra
    exact absurd (congrArg Char.toNat hcontra) (by decide)
  · rw [if_neg h]
    exact h

theorem macNormalize_dash_form (s : List Char) (h : ∀ c ∈ s, macInputChar c = true) :
    dashDelimitedLower (macNormalize s) = true := by
  rw [macNormalize_eq_map]
  unfold dashDelimitedLower
  rw [List.all_eq_true]
  intro x hx
  obtain ⟨c, hc, rfl⟩ := List.mem_map.mp hx
  have hin := h c hc
  unfold macInputChar at hin
  unfold macNormChar
  by_cases hcol : c.toLower = ':'
  · rw [if_pos hcol]
    decide
  · rw [if_neg hcol]
    have h1 := toLower_toNat c
    have hne : c ≠ ':' := fun hh => hcol (by rw [hh]; rfl)
    have hnat : c.toNat ≠ 58 := fun hh =>
      hne (char_eq_of_toNat_eq (by rw [hh]; rfl))
    simp only [Bool.or_eq_true, Bool.and_eq_true, decide_eq_true_iff] at hin ⊢
    rcases hin with ((((hd | hu) | hl) | hcolon) | hdash)
    · left; right
      rw [if_neg (by omega)] at h1
      omega
    · left; left
      rw [if_pos (by omega)] at h1
      omega
    · left; left
      rw [if_neg (by omega)] at h1
      omega
    · exact absurd hcolon hne
    · right
      apply char_eq_of_toNat_eq
      rw [hdash] at h1 ⊢
      revert h1
      decide

theorem pyIn_nil (h : List Char) : pyIn [] h = true :=
  decide_eq_true List.nil_infix

theorem pyAnyIn_none_cons (x : Option (List Char)) (xs : List (Option (List Char))) :
    pyAnyIn none (x :: xs) = Except.error "TypeError".data := rfl

theorem hostnameSweepAddrs_ne_nil (pfx : List Char) : hostnameSweepAddrs pfx ≠ [] := by
  simp [hostnameSweepAddrs, List.range_eq_nil]

theorem ping_isSome {stdout stderr : List Char} (h : (stdout, stderr) ≠ ([], [])) :
    (ping stdout stderr).isSome = true := by
  unfold ping
  by_cases he : stderr = []
  · subst he
    by_cases ho : stdout = []
    · exact absurd (by rw [ho]) h
    · simp [ho]
  · simp [he]

theorem pyAnyIn_all_some (n : List Char) (l : List (Option (List Char)))
    (h : ∀ o ∈ l, o.isSome = true) :
    (∃ b, pyAnyIn (some n) l = Except.ok b) ∧
    (pyAnyIn (some n) l = Except.ok true ↔ ∃ o ∈ l, ∃ s, o = some s ∧ n <:+: s) := by
  induction l with
  | nil =>
      refine ⟨⟨false, rfl⟩, ?_⟩
      simp [pyAnyIn]
  | cons x xs ih =>
      obtain ⟨s, rfl⟩ := Option.isSome_iff_exists.mp (h x (List.mem_cons_self x xs))
      have hxs := ih (fun o ho => h o (List.mem_cons_of_mem _ ho))
      by_cases hs : pyIn n s = true
      · refine ⟨⟨true, ?_⟩, ?_⟩
        · simp [pyAnyIn, pyInOpt, hs]
        · constructor
          · intro _
            exact ⟨some s, List.mem_cons_self _ _, s, rfl, of_decide_eq_true hs⟩
          · intro _
            simp [pyAnyIn, pyInOpt, hs]
      · have hred : pyAnyIn (some n) (some s :: xs) = pyAnyIn (some n) xs := by
          simp [pyAnyIn, pyInOpt, Bool.not_eq_true] at hs ⊢
          rw [hs]
        refine ⟨?_, ?_⟩
        · rw [hred]
          exact hxs.1
        · rw [hred, hxs.2]
          constructor
          · intro ⟨o, ho, hw⟩
            exact ⟨o, List.mem_cons_of_mem _ ho, hw⟩
          · intro ⟨o, ho, s2, hos, hinf⟩
            rcases List.mem_cons.mp ho with hox | hox
            · subst hox
              cases hos
              exact absurd (decide_eq_true hinf) (by simpa [pyIn] using hs)
            · exact ⟨o, hox, s2, hos, hinf⟩

/-! Claim theorems. -/

/-- Claim C1, counterexample: a `scan_network` sweep over prefix
"192.168.0." does not issue 254 probe calls — it issues one to
"192.168.0.0" as well, because the source iterates `range(255)`. -/
theorem scan_network_count_cex :
    (scanAddrs "192.168.0.".data).length ≠ 254 ∧
    "192.168.0.0".data ∈ scanAddrs "192.168.0.".data := by
  constructor
  · decide
  · decide

/-- Claim C1 (amended): a `scan_network` sweep over prefix "192.168.0."
issues exactly 255 probe calls, to "192.168.0.0" through "192.168.0.254",
and every probe completes before `arp -a` is read and the sweep returns
(the `asyncio.gather` barrier): in the event trace, whatever completion
order the scheduler picks, every probe-completion event lies strictly
before the return event. -/
theorem scan_network_sweep (doneOrder : List (List Char))
    (h : doneOrder.Perm (scanAddrs "192.168.0.".data)) :
    (scanAddrs "192.168.0.".data).length = 255 ∧
    (scanAddrs "192.168.0.".data).head? = some "192.168.0.0".data ∧
    (scanAddrs "192.168.0.".data).getLast? = some "192.168.0.254".data ∧
    ∃ pre, scanTrace "192.168.0.".data doneOrder
        = pre ++ [SweepEvent.cacheRead, SweepEvent.ret] ∧
      ∀ a ∈ scanAddrs "192.168.0.".data, SweepEvent.probeDone a ∈ pre := by
  refine ⟨by decide, by decide, by decide,
    (scanAddrs "192.168.0.".data).map SweepEvent.probeIssued
      ++ doneOrder.map SweepEvent.probeDone, ?_, ?_⟩
  · rw [scanTrace, List.append_assoc]
  · intro a ha
    exact List.mem_append_right _
      (List.mem_map_of_mem _ (h.mem_iff.mpr ha))

/-- Witness for C1's theorem, with the completion order equal to the issue
order. -/
theorem scan_network_sweep_w :
    (scanAddrs "192.168.0.".data).length = 255 ∧
    (scanAddrs "192.168.0.".data).head? = some "192.168.0.0".data ∧
    (scanAddrs "192.168.0.".data).getLast? = some "192.168.0.254".data ∧
    ∃ pre, scanTrace "192.168.0.".data (scanAddrs "192.168.0.".data)
        = pre ++ [SweepEvent.cacheRead, SweepEvent.ret] ∧
      ∀ a ∈ scanAddrs "192.168.0.".data, SweepEvent.probeDone a ∈ pre :=
  scan_network_sweep (scanAddrs "192.168.0.".data) (List.Perm.refl _)

/-- Claim C2, counterexample: with an empty prefix, `scan_network` does not
short-circuit — it still issues 255 probes (to the bare host numbers), and
the returned snapshot is not empty (the empty prefix is a substring of every
`arp -a` line, so every line passes the filter). -/
theorem scan_network_empty_cex :
    (scanAddrs []).length ≠ 0 ∧
    (scan_network (fun _ => ([], [])) "a\nb".data []).2 ≠ [] := by
  constructor
  · decide
  · decide

/-- Claim C2 (amended): when the target's IP is absent the derived subnet
prefix is the empty string, and a sweep then does not short-circuit: it
issues 255 probe calls, to the bare host-number strings "0" through "254",
and returns every line of the `arp -a` output (since the empty prefix is
contained in every line). -/
theorem scan_network_empty (t : Scanner)
    (proc : List Char → List Char × List Char) (arpa : List Char)
    (h : t.ip = none) :
    t.subnetPfx = [] ∧
    scanAddrs t.subnetPfx = (List.range 255).map natChars ∧
    (scanAddrs t.subnetPfx).length = 255 ∧
    (scan_network proc arpa t.subnetPfx).2 = pySplit '\n' arpa := by
  have hp : t.subnetPfx = [] := by
    unfold Scanner.subnetPfx
    rw [h]
  rw [hp]
  refine ⟨rfl, by simp [scanAddrs], by decide, ?_⟩
  unfold scan_network
  rw [List.filter_eq_self.mpr]
  intro a _
  exact pyIn_nil a

/-- Witness for C2's theorem: a target with no IP set, at a concrete probe
environment and `arp -a` output with two lines. -/
theorem scan_network_empty_w :
    (Scanner.mk none none (some "DIETPI".data)).subnetPfx = [] ∧
    scanAddrs (Scanner.mk none none (some "DIETPI".data)).subnetPfx
      = (List.range 255).map natChars ∧
    (scanAddrs (Scanner.mk none none (some "DIETPI".data)).subnetPfx).length = 255 ∧
    (scan_network (fun _ => ([], []))
      "? (10.0.0.9) at aa-bb on eth0\n? (10.0.0.8) at cc-dd on eth0".data
      (Scanner.mk none none (some "DIETPI".data)).subnetPfx).2
      = pySplit '\n'
        "? (10.0.0.9) at aa-bb on eth0\n? (10.0.0.8) at cc-dd on eth0".data :=
  scan_network_empty (Scanner.mk none none (some "DIETPI".data))
    (fun _ => ([], []))
    "? (10.0.0.9) at aa-bb on eth0\n? (10.0.0.8) at cc-dd on eth0".data rfl

/-- Claim C3, counterexample: with the hostname unset, the hostname
strategy's evaluation does not return a definite `False` — the comparison
`None in x` raises a `TypeError` (there is no unset-field guard on
`HostnameScanStrategy.on_network`). -/
theorem unset_hostname_cex :
    HostnameScanStrategy.on_network none [] (fun _ => ("x".data, []))
        ≠ Except.ok false ∧
    HostnameScanStrategy.on_network none [] (fun _ => ("x".data, []))
        = Except.error "TypeError".data := by
  constructor
  · decide
  · decide

/-- Claim C3 (amended): with the identifying field unset, the IP and MAC
strategies return the definite value `False`; the hostname strategy instead
raises a `TypeError` (its `on_network` has no guard and evaluates
`None in x` on the first gathered probe output). -/
theorem unset_field_strategies (arpa pfx : List Char)
    (proc : List Char → List Char × List Char) :
    IpScanStrategy.on_network none arpa = false ∧
    MacScanStrategy.on_network none arpa = false ∧
    HostnameScanStrategy.on_network none pfx proc
      = Except.error "TypeError".data := by
  refine ⟨rfl, rfl, ?_⟩
  obtain ⟨x, xs, hx⟩ :=
    List.exists_cons_of_ne_nil (hostnameSweepAddrs_ne_nil pfx)
  unfold HostnameScanStrategy.on_network
  rw [hx, List.map_cons]
  exact pyAnyIn_none_cons _ _

/-- Witness for C3's theorem at a concrete snapshot, prefix and probe
environment. -/
theorem unset_field_strategies_w :
    IpScanStrategy.on_network none "? (10.0.0.9) at aa-bb on eth0".data = false ∧
    MacScanStrategy.on_network none "? (10.0.0.9) at aa-bb on eth0".data = false ∧
    HostnameScanStrategy.on_network none "10.0.0.".data (fun _ => ("reply".data, []))
      = Except.error "TypeError".data :=
  unset_field_strategies "? (10.0.0.9) at aa-bb on eth0".data "10.0.0.".data
    (fun _ => ("reply".data, []))

/-- Claim C4 (confirmed): in state-change-only callback mode
(`cb_on_change_only=True`), starting from the initial `None` state, the
evaluate sequence `[False, False, True, True, False]` fires the callback
exactly at tick 3 (the transition to present) and tick 5 (the transition
to absent); the source's policy for the first false after the initial
state — which the claim leaves open — is not to fire. -/
theorem monitor_change_only_fires (t : Scanner) :
    (monitorRun t true none [false, false, true, true, false]).2.map Option.isSome
      = [false, false, true, false, true] := by
  rfl

/-- Claim C5 (confirmed): in fire-always mode (`cb_on_change_only=False`),
the evaluate sequence `[False, False, True, True, False]` fires the callback
on all 5 ticks; the false ticks pass all-`None` arguments and the true ticks
pass the target's `(ip, mac, hostname)` (with `mac` the normalized
property). -/
theorem monitor_fire_always (t : Scanner) :
    (monitorRun t false none [false, false, true, true, false]).2
      = [some (none, none, none), some (none, none, none),
         some (t.ip, t.mac, t.hostname), some (t.ip, t.mac, t.hostname),
         some (none, none, none)] := by
  rfl

/-- Claim C6, counterexample: the hostname strategy's own sweep does not
probe 254 host addresses — `range(255)` probes 255 of them. -/
theorem hostname_sweep_count_cex :
    (hostnameSweepAddrs "192.168.0.".data).length ≠ 254 := by
  decide

/-- Claim C6 (amended): for a set hostname, the hostname strategy issues its
own sweep over the 255 addresses `prefix + str(i)`, `i in range(255)`, and
— provided every probe process produces some output text, as both replies
and failures do — evaluation returns without error, and returns `True` iff
at least one probe output contains the hostname as a case-sensitive
contiguous substring. -/
theorem hostname_sweep_iff (hostname pfx : List Char)
    (proc : List Char → List Char × List Char)
    (h : ∀ a ∈ hostnameSweepAddrs pfx, proc a ≠ ([], [])) :
    (∃ b, HostnameScanStrategy.on_network (some hostname) pfx proc
        = Except.ok b) ∧
    (HostnameScanStrategy.on_network (some hostname) pfx proc = Except.ok true ↔
      ∃ a ∈ hostnameSweepAddrs pfx, ∃ out,
        pingOf proc a = some out ∧ hostname <:+: out) := by
  have hsome : ∀ o ∈ (hostnameSweepAddrs pfx).map (pingOf proc), o.isSome = true := by
    intro o ho
    obtain ⟨a, ha, rfl⟩ := List.mem_map.mp ho
    exact ping_isSome (h a ha)
  have hmain := pyAnyIn_all_some hostname ((hostnameSweepAddrs pfx).map (pingOf proc)) hsome
  refine ⟨hmain.1, ?_⟩
  unfold HostnameScanStrategy.on_network
  rw [hmain.2]
  constructor
  · intro ⟨o, ho, out, ho2, hinf⟩
    obtain ⟨a, ha, rfl⟩ := List.mem_map.mp ho
    exact ⟨a, ha, out, ho2, hinf⟩
  · intro ⟨a, ha, out, ho2, hinf⟩
    exact ⟨pingOf proc a, List.mem_map_of_mem _ ha, out, ho2, hinf⟩

/-- Witness for C6's theorem: the end-to-end scenario — target with only
hostname "DIETPI" set (so the derived prefix is empty), one probe replying
with text containing "DIETPI", every other probe failing with error text —
evaluates to `True`. -/
theorem hostname_sweep_iff_w :
    HostnameScanStrategy.on_network (some "DIETPI".data) [] procW
      = Except.ok true :=
  (hostname_sweep_iff "DIETPI".data [] procW (by decide)).2.mpr
    ⟨"47".data, by decide, "Reply from 47: DIETPI [192.168.0.47]".data,
     rfl, by decide⟩

/-- Claim C7 (confirmed): for a set (truthy, i.e. non-empty) IP, the IP
strategy's evaluation returns `True` iff the IP string occurs verbatim as a
contiguous substring of the `arp -a` snapshot text. -/
theorem ip_strategy_iff (ip arpa : List Char) (h : ip ≠ []) :
    IpScanStrategy.on_network (some ip) arpa = true ↔ ip <:+: arpa := by
  have hred : IpScanStrategy.on_network (some ip) arpa
      = if ip = [] then false else pyIn ip arpa := rfl
  rw [hred, if_neg h]
  unfold pyIn
  exact decide_eq_true_iff

/-- Witness for C7's theorem at a concrete IP and snapshot. -/
theorem ip_strategy_iff_w :
    IpScanStrategy.on_network (some "192.168.0.7".data)
        "? (192.168.0.7) at 00-11-22-33-44-55 [ether] on eth0".data = true ↔
      "192.168.0.7".data <:+:
        "? (192.168.0.7) at 00-11-22-33-44-55 [ether] on eth0".data :=
  ip_strategy_iff "192.168.0.7".data
    "? (192.168.0.7) at 00-11-22-33-44-55 [ether] on eth0".data (by decide)

/-- Claim C8, counterexample: normalization does not produce dash-delimited
form for every delimiter — a dot-delimited hardware address keeps its dots,
since the source only replaces colons. -/
theorem mac_normalize_dash_cex :
    macNormalize "AA.BB.CC.DD.EE.FF".data = "aa.bb.cc.dd.ee.ff".data ∧
    dashDelimitedLower (macNormalize "AA.BB.CC.DD.EE.FF".data) = false := by
  constructor
  · decide
  · decide

/-- Claim C8 (amended): hardware-address normalization is idempotent for
every string, its result is lower-case (fixed under lowering) and
colon-free, and it is in lower-case dash-delimited form for every input
whose characters are alphanumerics, colons or dashes — but a delimiter
other than colon or dash is preserved, not replaced. -/
theorem mac_normalize_props (s : List Char) :
    macNormalize (macNormalize s) = macNormalize s ∧
    pyLower (macNormalize s) = macNormalize s ∧
    (∀ c ∈ macNormalize s, c ≠ ':') ∧
    ((∀ c ∈ s, macInputChar c = true) →
      dashDelimitedLower (macNormalize s) = true) :=
  ⟨macNormalize_idem s, pyLower_macNormalize s, macNormalize_no_colon s,
   macNormalize_dash_form s⟩

/-- Witness for C8's theorem at a concrete mixed-case colon-delimited
address. -/
theorem mac_normalize_props_w :
    macNormalize (macNormalize "AA:bb:CC:dd:EE:ff".data)
        = macNormalize "AA:bb:CC:dd:EE:ff".data ∧
    dashDelimitedLower (macNormalize "AA:bb:CC:dd:EE:ff".data) = true :=
  ⟨(mac_normalize_props "AA:bb:CC:dd:EE:ff".data).1,
   (mac_normalize_props "AA:bb:CC:dd:EE:ff".data).2.2.2 (by decide)⟩

/-- Claim C9 (confirmed): one probe's result is exactly one of — the error
text when the probe mechanism wrote to stderr (returned as a value, not
raised), the captured output text when there is stdout and no stderr, or
`None` for an empty success — never more than one of these. -/
theorem ping_result_trichotomy (stdout stderr : List Char) :
    (stderr ≠ [] ∧ ping stdout stderr = some stderr) ∨
    (stderr = [] ∧ stdout ≠ [] ∧ ping stdout stderr = some stdout) ∨
    (stderr = [] ∧ stdout = [] ∧ ping stdout stderr = none) := by
  unfold ping
  by_cases he : stderr = []
  · by_cases ho : stdout = []
    · right; right
      refine ⟨he, ho, ?_⟩
      simp [he, ho]
    · right; left
      refine ⟨he, ho, ?_⟩
      simp [he, ho]
  · left
    refine ⟨he, ?_⟩
    simp [he]

/-- Claim C10 (confirmed): after every completed tick of the monitor loop,
`state_is_connected` equals `some` of that tick's evaluation result —
whatever the change-only flag, the target, and the starting state — so once
any tick has completed the state is never again the initial `None`. -/
theorem monitor_state_tracks_eval (t : Scanner) (c : Bool) (st : Option Bool)
    (evs : List Bool) :
    monitorStates t c st evs = evs.map some := by
  induction evs generalizing st with
  | nil => rfl
  | cons ev evs ih =>
      have hfst : (monitorTick t c st ev).1 = some ev := by
        cases ev <;> rfl
      simp only [monitorStates, List.map_cons, hfst, ih]

end NetScan
